import Mathlib

/-!
Verification of the Alx_DjangoLearnLab repository's specified behavior.

The repository is a set of small Django / Django-REST-Framework projects.
Its own code is declarative configuration (model fields, serializer field
lists, view attributes) plus a few small functions.  This development embeds
that configuration and the small functions shallowly:

* `ApiProject` — the `advanced-api-project` book catalog: the
  `validate_publication_year` serializer validator, the `BookListView`
  filter / search / ordering stages, the write views' permission gate, and
  the `Book.author` cascade delete.
* `RelApp` — the `relationship_app` role predicates (`is_admin`,
  `is_librarian`, `is_member`), the `user_passes_test` gate, and the
  `post_save` signal that auto-creates a `UserProfile`.
* `SM` — the `social_media_api` posts app: `IsOwnerOrReadOnly`, and the
  `PostSerializer` / `CommentSerializer` writable-field handling.
* `Blog` — the `django_blog` `PostForm.save` tag handling.

Framework primitives the projects configure (DRF permission dispatch, ORM
`icontains` / `order_by` / CASCADE semantics, serializer `read_only_fields`
handling, signal dispatch) are embedded following their documented behavior
as restated by the specification; the repository's own values (field lists,
whitelists, role strings, bounds) are taken verbatim from the source.
-/

/-- HTTP methods used by the projects' endpoints. -/
inductive Method where
  | GET
  | POST
  | PUT
  | PATCH
  | DELETE
deriving DecidableEq, Repr

/-- Embeds DRF's `SAFE_METHODS` membership test for the methods above
(`GET`, `HEAD`, `OPTIONS` are safe; only `GET` of those appears here). -/
def safeMethod : Method → Bool
  | .GET => true
  | _ => false

namespace ApiProject

/-- Embeds `api.models.Author` (advanced-api-project): a row with its
primary key and the `name` field. -/
structure AuthorRec where
  id : Nat
  name : String
deriving DecidableEq, Repr

/-- Embeds `api.models.Book` (advanced-api-project): `title`,
`publication_year`, and the `author` foreign key (stored as the author id). -/
structure BookRec where
  id : Nat
  title : String
  publication_year : Int
  author : Nat
deriving DecidableEq, Repr

/-- Database state of the `api` app: the author table and the book table. -/
structure ApiDB where
  authors : List AuthorRec
  books : List BookRec
deriving DecidableEq, Repr

/-- Message raised by the validator when the year is in the future,
as in `serializers.py`. -/
def futureMsg (current_year : Int) : String :=
  "Publication year cannot be in the future. Current year is " ++
    toString current_year ++ "."

/-- Message raised by the validator when the year is before 1450,
as in `serializers.py`. -/
def unrealisticMsg : String :=
  "Publication year seems unrealistic. Please enter a valid year."

/-- Embeds `BookSerializer.validate_publication_year`
(`api/serializers.py`).  `current_year` stands for `datetime.now().year`,
passed explicitly to keep the function pure.  A raised
`serializers.ValidationError` is embedded as `Except.error`. -/
def validate_publication_year (current_year : Int) (value : Int) :
    Except String Int :=
  if value > current_year then
    .error (futureMsg current_year)
  else if value < 1450 then
    .error unrealisticMsg
  else
    .ok value

/-- Embeds DRF's `IsAuthenticatedOrReadOnly.has_permission`, the
`permission_classes` entry of `BookCreateView`, `BookUpdateView` and
`BookDeleteView` (`api/views.py`): safe methods are always permitted, write
methods only for authenticated requests. -/
def isAuthenticatedOrReadOnly (authenticated : Bool) (m : Method) : Bool :=
  safeMethod m || authenticated

/-- Result of a request against the book endpoints: the HTTP status code and
the book table after the request. -/
structure HttpResult where
  status : Nat
  books : List BookRec
deriving DecidableEq, Repr

/-- Modelled from the spec: DRF generic views run the permission check
before the handler ("Unauthenticated writes return 403"; the project's own
tests assert `HTTP_403_FORBIDDEN`), so a failed check produces a 403
response without invoking the handler or touching the stored books. -/
def dispatch (permitted : Bool) (handler : List BookRec → HttpResult)
    (books : List BookRec) : HttpResult :=
  if permitted then handler books else { status := 403, books := books }

/-- Embeds `BookCreateView` (`api/views.py`): POST gated by
`IsAuthenticatedOrReadOnly`; on success the serializer validates
`publication_year` and `perform_create` saves the new row (201), a
validation failure returns 400 with nothing saved. -/
def bookCreateView (current_year : Int) (authenticated : Bool) (b : BookRec)
    (books : List BookRec) : HttpResult :=
  dispatch (isAuthenticatedOrReadOnly authenticated .POST)
    (fun db =>
      match validate_publication_year current_year b.publication_year with
      | .ok _ => { status := 201, books := db ++ [b] }
      | .error _ => { status := 400, books := db })
    books

/-- Embeds `BookUpdateView` (`api/views.py`): PUT / PATCH gated by
`IsAuthenticatedOrReadOnly`; on success the row looked up by `pk` is
replaced with the validated data (200), with 404 when absent and 400 on a
validation failure. -/
def bookUpdateView (current_year : Int) (authenticated : Bool) (m : Method)
    (pk : Nat) (b : BookRec) (books : List BookRec) : HttpResult :=
  dispatch (isAuthenticatedOrReadOnly authenticated m)
    (fun db =>
      if db.any (fun x => x.id == pk) then
        match validate_publication_year current_year b.publication_year with
        | .ok _ =>
            { status := 200,
              books := db.map (fun x => if x.id == pk then { b with id := pk } else x) }
        | .error _ => { status := 400, books := db }
      else { status := 404, books := db })
    books

/-- Embeds `BookDeleteView` (`api/views.py`): DELETE gated by
`IsAuthenticatedOrReadOnly`; on success the row looked up by `pk` is
removed (204), with 404 when absent. -/
def bookDeleteView (authenticated : Bool) (pk : Nat)
    (books : List BookRec) : HttpResult :=
  dispatch (isAuthenticatedOrReadOnly authenticated .DELETE)
    (fun db =>
      if db.any (fun x => x.id == pk) then
        { status := 204, books := db.filter (fun x => x.id != pk) }
      else { status := 404, books := db })
    books

/-- Decides whether `needle` occurs as a contiguous substring of `hay`
(over character lists). -/
def charsContain (hay needle : List Char) : Bool :=
  match hay with
  | [] => needle.isEmpty
  | c :: t => needle.isPrefixOf (c :: t) || charsContain t needle

/-- Embeds the ORM `icontains` lookup used by DRF's `SearchFilter`: `needle`
is a case-insensitive substring of `hay` (both sides lowercased). -/
def icontains (hay needle : String) : Bool :=
  charsContain hay.toLower.data needle.toLower.data

/-- The `search_fields` whitelist of `BookListView` (`api/views.py`). -/
def search_fields : List String := ["title", "author__name"]

/-- Search predicate of `BookListView` over one book: an `icontains` match
on `title`, or on the joined author's `name` (`author__name`), unioned. -/
def bookMatchesSearch (db : ApiDB) (q : String) (b : BookRec) : Bool :=
  icontains b.title q ||
    db.authors.any (fun a => a.id == b.author && icontains a.name q)

/-- Embeds the `SearchFilter` stage of `BookListView`: with no search
parameter (or an empty one, which yields no search terms) the queryset is
returned unchanged; with a term `q` only the books matching
`bookMatchesSearch` are kept. -/
def searchStage (db : ApiDB) (q : Option String) (books : List BookRec) :
    List BookRec :=
  match q with
  | none => books
  | some s => if s = "" then books else books.filter (bookMatchesSearch db s)

/-- The `filterset_fields` whitelist of `BookListView` (`api/views.py`). -/
def filterset_fields : List String := ["title", "author", "publication_year"]

/-- Query parameters accepted by the `DjangoFilterBackend` stage of
`BookListView`: each of the whitelisted fields may carry a value. -/
structure BookFilterParams where
  title : Option String
  author : Option Nat
  publication_year : Option Int
deriving DecidableEq, Repr

/-- Exact-match filter predicate of `BookListView` over one book: every
filter parameter that is present must equal the corresponding field. -/
def matchesFilterParams (p : BookFilterParams) (b : BookRec) : Bool :=
  (match p.title with
   | none => true
   | some t => b.title == t) &&
  (match p.author with
   | none => true
   | some a => b.author == a) &&
  (match p.publication_year with
   | none => true
   | some y => b.publication_year == y)

/-- Embeds the `DjangoFilterBackend` stage of `BookListView`: keep exactly
the books satisfying every present exact-match parameter. -/
def filterStage (p : BookFilterParams) (books : List BookRec) : List BookRec :=
  books.filter (matchesFilterParams p)

/-- The `ordering_fields` whitelist of `BookListView` (`api/views.py`). -/
def ordering_fields : List String := ["title", "publication_year"]

/-- Ascending-title comparison on books (the ORM's `order_by('title')`). -/
def titleLe (a b : BookRec) : Bool := decide (a.title ≤ b.title)

/-- Ascending-year comparison on books
(the ORM's `order_by('publication_year')`). -/
def yearLe (a b : BookRec) : Bool :=
  decide (a.publication_year ≤ b.publication_year)

/-- Embeds the `OrderingFilter` stage of `BookListView`: a whitelisted
`ordering` parameter sorts ascending by that field, a `-`-prefixed one
descending; a missing or non-whitelisted parameter falls back to the view's
default `ordering = ['title']` (ascending title). -/
def orderingStage (p : Option String) (books : List BookRec) : List BookRec :=
  match p with
  | some "title" => books.mergeSort titleLe
  | some "-title" => books.mergeSort (fun a b => titleLe b a)
  | some "publication_year" => books.mergeSort yearLe
  | some "-publication_year" => books.mergeSort (fun a b => yearLe b a)
  | _ => books.mergeSort titleLe

/-- Embeds the full `BookListView` GET pipeline: the three configured
`filter_backends` applied in order (`DjangoFilterBackend`, `SearchFilter`,
`OrderingFilter`). -/
def bookList (db : ApiDB) (p : BookFilterParams) (q : Option String)
    (ord : Option String) : List BookRec :=
  orderingStage ord (searchStage db q (filterStage p db.books))

/-- Embeds deleting an `Author` row: the ORM removes the author and, because
`Book.author` is declared with `on_delete=models.CASCADE`
(`api/models.py`), cascades the delete to every book referencing it. -/
def delete_author (aid : Nat) (db : ApiDB) : ApiDB :=
  { authors := db.authors.filter (fun a => a.id != aid),
    books := db.books.filter (fun b => b.author != aid) }

end ApiProject

namespace RelApp

/-- Embeds `relationship_app.models.UserProfile`: the linked user id and the
`role` field (`choices=ROLE_CHOICES`, `default=MEMBER`). -/
structure ProfileRow where
  user : Nat
  role : String
deriving DecidableEq, Repr

/-- The `ROLE_CHOICES` values of `UserProfile` (`models.py`). -/
def ROLE_CHOICES : List String := ["Admin", "Librarian", "Member"]

/-- A requesting account as the role predicates see it:
`user.is_authenticated`, and `user.profile` when `hasattr(user, 'profile')`
holds (the one-to-one reverse accessor). -/
structure AuthUser where
  is_authenticated : Bool
  profile : Option ProfileRow
deriving DecidableEq, Repr

/-- Embeds `is_admin` (`relationship_app/views.py`): authenticated, has a
profile, and the profile's role equals `'Admin'`. -/
def is_admin (u : AuthUser) : Bool :=
  u.is_authenticated &&
    (match u.profile with
     | some p => p.role == "Admin"
     | none => false)

/-- Embeds `is_librarian` (`relationship_app/views.py`). -/
def is_librarian (u : AuthUser) : Bool :=
  u.is_authenticated &&
    (match u.profile with
     | some p => p.role == "Librarian"
     | none => false)

/-- Embeds `is_member` (`relationship_app/views.py`). -/
def is_member (u : AuthUser) : Bool :=
  u.is_authenticated &&
    (match u.profile with
     | some p => p.role == "Member"
     | none => false)

/-- Modelled from the spec: Django's `user_passes_test` decorator runs the
predicate before the wrapped view; on failure it redirects to `login_url`
without invoking the view, so the protected data (`σ`) is neither read nor
changed; on success it delegates to the wrapped CRUD view. -/
def user_passes_test_view {σ : Type} (test : AuthUser → Bool)
    (view : σ → σ × String) (u : AuthUser) (s : σ) : σ × String :=
  if test u then view s else (s, "redirect:/login/")

/-- Embeds the `create_user_profile` `post_save` receiver
(`relationship_app/models.py`): when a `User` row was just created
(`created=True`), a `UserProfile` for it is inserted with the default role
(`Member`). -/
def create_user_profile (created : Bool) (userId : Nat)
    (profiles : List ProfileRow) : List ProfileRow :=
  if created then profiles ++ [{ user := userId, role := "Member" }] else profiles

/-- Account state of the app: the user table (ids) and the profile table. -/
structure AuthState where
  users : List Nat
  profiles : List ProfileRow
deriving DecidableEq, Repr

/-- Modelled from the spec: saving a new `User` fires the `post_save` signal
with `created=True`, so registering an account inserts the user row and then
runs `create_user_profile` ("signal-based auto-creation of a profile record
when a user account is created"). -/
def register_user (uid : Nat) (st : AuthState) : AuthState :=
  { users := st.users ++ [uid],
    profiles := create_user_profile true uid st.profiles }

/-- Invariant: every account in the state has a linked profile whose role is
one of the `ROLE_CHOICES`. -/
def allUsersProfiled (st : AuthState) : Prop :=
  ∀ u ∈ st.users, ∃ pr ∈ st.profiles, pr.user = u ∧ pr.role ∈ ROLE_CHOICES

end RelApp

namespace SM

/-- The requesting account of the posts API: `request.user` is either the
`AnonymousUser` or an authenticated user row. -/
inductive Account where
  | anon
  | auth (id : Nat)
deriving DecidableEq, Repr

/-- Embeds DRF's `IsAuthenticated` permission over such an account. -/
def isAuthenticated : Account → Bool
  | .anon => false
  | .auth _ => true

/-- Embeds `posts.models.Post` as the serializers and permissions see it:
primary key, `author` foreign key, `title`, `content`, timestamps. -/
structure PostRec where
  id : Nat
  author : Nat
  title : String
  content : String
  created_at : Nat
  updated_at : Nat
deriving DecidableEq, Repr

/-- Embeds the `obj.author == request.user` comparison of
`IsOwnerOrReadOnly` (`posts/views.py`): the `AnonymousUser` never equals a
stored author. -/
def is_owner (acct : Account) (p : PostRec) : Bool :=
  match acct with
  | .anon => false
  | .auth i => p.author == i

/-- Embeds `IsOwnerOrReadOnly.has_object_permission` (`posts/views.py`):
safe methods are always allowed, writes only for the object's author. -/
def has_object_permission (m : Method) (acct : Account) (p : PostRec) : Bool :=
  if safeMethod m then true else is_owner acct p

/-- Conjunction of the viewsets' `permission_classes`
(`[IsAuthenticated, IsOwnerOrReadOnly]`) on an object-level request. -/
def objectWritePermitted (m : Method) (acct : Account) (p : PostRec) : Bool :=
  isAuthenticated acct && has_object_permission m acct p

/-- Modelled from the spec: DRF checks the object permissions before
dispatching to the viewset action; a refusal returns 403 without invoking
the handler, so the state (`σ`) is neither read nor changed. -/
def objectDispatch {σ : Type} (m : Method) (acct : Account) (p : PostRec)
    (handler : σ → σ × Nat) (s : σ) : σ × Nat :=
  if objectWritePermitted m acct p then handler s else (s, 403)

/-- Embeds `posts.models.Comment`: primary key, the `post` foreign key, the
`author` foreign key, `content`, timestamps. -/
structure CommentRec where
  id : Nat
  post : Nat
  author : Nat
  content : String
  created_at : Nat
  updated_at : Nat
deriving DecidableEq, Repr

/-- A JSON value appearing in a request body: a string or a number. -/
inductive FieldValue where
  | s (v : String)
  | n (v : Nat)
deriving DecidableEq, Repr

/-- A request body: field names paired with values, as the client sent it. -/
abbrev Payload := List (String × FieldValue)

/-- The `Meta.fields` list of `PostSerializer` (`posts/serializers.py`). -/
def post_fields : List String :=
  ["id", "author", "author_username", "title", "content",
   "created_at", "updated_at"]

/-- The `Meta.read_only_fields` list of `PostSerializer`
(`posts/serializers.py`). -/
def post_read_only_fields : List String :=
  ["id", "author", "author_username", "created_at", "updated_at"]

/-- The `Meta.fields` list of `CommentSerializer` (`posts/serializers.py`). -/
def comment_fields : List String :=
  ["id", "post", "author", "author_username", "content",
   "created_at", "updated_at"]

/-- The `Meta.read_only_fields` list of `CommentSerializer`
(`posts/serializers.py`). -/
def comment_read_only_fields : List String :=
  ["id", "author", "author_username", "created_at", "updated_at"]

/-- Modelled from the spec: a DRF `ModelSerializer` builds `validated_data`
only from declared fields that are not read-only, so the incoming payload is
restricted to the writable fields before any write. -/
def writablePayload (fields read_only : List String) (body : Payload) :
    Payload :=
  body.filter (fun kv => fields.contains kv.1 && !read_only.contains kv.1)

/-- Applies one validated field to a `PostRec`, as the serializer's
`setattr`-per-field update does; unknown names change nothing. -/
def applyPostField (p : PostRec) (kv : String × FieldValue) : PostRec :=
  if kv.1 = "id" then
    match kv.2 with
    | .n v => { p with id := v }
    | _ => p
  else if kv.1 = "author" then
    match kv.2 with
    | .n v => { p with author := v }
    | _ => p
  else if kv.1 = "title" then
    match kv.2 with
    | .s v => { p with title := v }
    | _ => p
  else if kv.1 = "content" then
    match kv.2 with
    | .s v => { p with content := v }
    | _ => p
  else if kv.1 = "created_at" then
    match kv.2 with
    | .n v => { p with created_at := v }
    | _ => p
  else if kv.1 = "updated_at" then
    match kv.2 with
    | .n v => { p with updated_at := v }
    | _ => p
  else p

/-- Applies one validated field to a `CommentRec`. -/
def applyCommentField (c : CommentRec) (kv : String × FieldValue) : CommentRec :=
  if kv.1 = "id" then
    match kv.2 with
    | .n v => { c with id := v }
    | _ => c
  else if kv.1 = "post" then
    match kv.2 with
    | .n v => { c with post := v }
    | _ => c
  else if kv.1 = "author" then
    match kv.2 with
    | .n v => { c with author := v }
    | _ => c
  else if kv.1 = "content" then
    match kv.2 with
    | .s v => { c with content := v }
    | _ => c
  else if kv.1 = "created_at" then
    match kv.2 with
    | .n v => { c with created_at := v }
    | _ => c
  else if kv.1 = "updated_at" then
    match kv.2 with
    | .n v => { c with updated_at := v }
    | _ => c
  else c

/-- Embeds an update through `PostSerializer` (PUT / PATCH on
`PostViewSet`): the payload is cut down to the writable fields and applied
field by field to the stored record. -/
def post_update (p : PostRec) (body : Payload) : PostRec :=
  (writablePayload post_fields post_read_only_fields body).foldl applyPostField p

/-- Embeds an update through `CommentSerializer` (PUT / PATCH on
`CommentViewSet`). -/
def comment_update (c : CommentRec) (body : Payload) : CommentRec :=
  (writablePayload comment_fields comment_read_only_fields body).foldl
    applyCommentField c

/-- Embeds `PostSerializer.create` plus `PostViewSet.perform_create`: the
writable payload populates a fresh record and the `author` is then set to
`request.user` (`validated_data['author'] = request.user` /
`serializer.save(author=self.request.user)`), whatever the body said. -/
def post_create (requester newId now : Nat) (body : Payload) : PostRec :=
  { (writablePayload post_fields post_read_only_fields body).foldl
      applyPostField ⟨newId, requester, "", "", now, now⟩ with
    author := requester }

/-- Embeds `CommentSerializer.create` plus `CommentViewSet.perform_create`. -/
def comment_create (requester newId now : Nat) (body : Payload) : CommentRec :=
  { (writablePayload comment_fields comment_read_only_fields body).foldl
      applyCommentField ⟨newId, 0, requester, "", now, now⟩ with
    author := requester }

end SM

namespace Blog

/-- Embeds `blog.models.Tag`: primary key and unique `name`. -/
structure Tag where
  id : Nat
  name : String
deriving DecidableEq, Repr

/-- State touched by `PostForm.save`: the tag table, the next primary key,
and the saved post's attached tag set (`instance.tags`). -/
structure TagState where
  allTags : List Tag
  nextId : Nat
  postTags : List Tag
deriving DecidableEq, Repr

/-- Embeds `Tag.objects.get_or_create(name=...)`: reuse the first existing
tag with that name, otherwise insert a fresh row. -/
def get_or_create (name : String) (st : TagState) : Tag × TagState :=
  match st.allTags.find? (fun t => t.name == name) with
  | some t => (t, st)
  | none =>
      let t : Tag := { id := st.nextId, name := name }
      (t, { st with allTags := st.allTags ++ [t], nextId := st.nextId + 1 })

/-- Embeds `instance.tags.add(tag)`: a many-to-many add is idempotent. -/
def tags_add (t : Tag) (st : TagState) : TagState :=
  if st.postTags.contains t then st
  else { st with postTags := st.postTags ++ [t] }

/-- Embeds `instance.tags.clear()`. -/
def tags_clear (st : TagState) : TagState :=
  { st with postTags := [] }

/-- The loop body of `PostForm.save`: for each raw name,
`get_or_create(name=tag_name.lower())` then `instance.tags.add(tag)`. -/
def add_tag_names (names : List String) (st : TagState) : TagState :=
  match names with
  | [] => st
  | name :: rest =>
      let r := get_or_create name.toLower st
      add_tag_names rest (tags_add r.1 r.2)

/-- Embeds Python's `str.split(',')` over the character list: split at every
comma (an empty string yields one empty chunk, as in Python). -/
def splitOnComma : List Char → List (List Char)
  | [] => [[]]
  | c :: t =>
      if c = ',' then [] :: splitOnComma t
      else
        match splitOnComma t with
        | [] => [[c]]
        | h :: r => (c :: h) :: r

/-- Embeds Python's `str.strip()`: drop whitespace from both ends. -/
def trimChars (l : List Char) : List Char :=
  ((l.dropWhile Char.isWhitespace).reverse.dropWhile Char.isWhitespace).reverse

/-- The list comprehension of `PostForm.save`:
`[name.strip() for name in tags.split(',') if name.strip()]`. -/
def parse_tag_names (input : String) : List String :=
  ((splitOnComma input.data).map (fun cs => String.mk (trimChars cs))).filter
    (fun name => name ≠ "")

/-- Embeds the tag handling of `PostForm.save` (`django_blog/blog/forms.py`):
when the cleaned `tags` input is truthy (non-empty), the post's tags are
cleared and each parsed name is lowercased and attached via
`get_or_create`; otherwise the tags are simply cleared. -/
def form_save_tags (input : String) (st : TagState) : TagState :=
  if input ≠ "" then add_tag_names (parse_tag_names input) (tags_clear st)
  else tags_clear st

/-- Names of the tags attached to the saved post. -/
def postTagNames (st : TagState) : List String :=
  st.postTags.map (fun t => t.name)

end Blog

/-- C1: the publication-year validator accepts `y` and returns it unchanged
iff `1450 ≤ y ≤ current_year`; for `y > current_year` it fails with the
future-year error, and for `y < 1450` it fails with the unrealistic-year
error; being a pure function it has no other effect. -/
theorem publication_year_validator_spec (cy y : Int) (hcy : (1450 : Int) ≤ cy) :
    (ApiProject.validate_publication_year cy y = .ok y ↔ 1450 ≤ y ∧ y ≤ cy) ∧
    (cy < y →
      ApiProject.validate_publication_year cy y = .error (ApiProject.futureMsg cy)) ∧
    (y < 1450 →
      ApiProject.validate_publication_year cy y = .error ApiProject.unrealisticMsg) ∧
    (∀ r, ApiProject.validate_publication_year cy y = .ok r → r = y) := by
  unfold ApiProject.validate_publication_year
  split_ifs with h1 h2
  · refine ⟨by simp; omega, fun _ => rfl, fun _ => by omega, fun r h => by cases h⟩
  · refine ⟨by simp; omega, fun h => by omega, fun _ => rfl, fun r h => by cases h⟩
  · refine ⟨by simp; omega, fun h => by omega, fun h => by omega,
      fun r h => by cases h; rfl⟩

/-- Witness for C1 at `current_year = 2025`: the year 2000 is accepted. -/
theorem publication_year_validator_spec_witness :
    ApiProject.validate_publication_year 2025 2000 = .ok 2000 :=
  (publication_year_validator_spec 2025 2000 (by norm_num)).1.mpr (by norm_num)

/-- C2: an unauthenticated POST, PUT, PATCH or DELETE on a protected book
endpoint (create, update, delete) returns 403 and leaves the stored set of
books exactly as it was: no record is created, modified or removed. -/
theorem unauthenticated_write_403 (cy : Int) (m : Method) (pk : Nat)
    (b : ApiProject.BookRec) (books : List ApiProject.BookRec)
    (hm : m = .PUT ∨ m = .PATCH) :
    ApiProject.bookCreateView cy false b books = ⟨403, books⟩ ∧
    ApiProject.bookUpdateView cy false m pk b books = ⟨403, books⟩ ∧
    ApiProject.bookDeleteView false pk books = ⟨403, books⟩ := by
  refine ⟨rfl, ?_, rfl⟩
  rcases hm with h | h <;> subst h <;> rfl

/-- Witness for C2 at a concrete one-book table and a concrete PUT. -/
theorem unauthenticated_write_403_witness :
    ApiProject.bookCreateView 2025 false ⟨2, "B", 1999, 1⟩
        [⟨1, "A", 2000, 1⟩] = ⟨403, [⟨1, "A", 2000, 1⟩]⟩ ∧
    ApiProject.bookUpdateView 2025 false .PUT 1 ⟨1, "B", 1999, 1⟩
        [⟨1, "A", 2000, 1⟩] = ⟨403, [⟨1, "A", 2000, 1⟩]⟩ ∧
    ApiProject.bookDeleteView false 1
        [⟨1, "A", 2000, 1⟩] = ⟨403, [⟨1, "A", 2000, 1⟩]⟩ :=
  unauthenticated_write_403 2025 .PUT 1 ⟨1, "B", 1999, 1⟩
    [⟨1, "A", 2000, 1⟩] (Or.inl rfl)

/-- Helper: `titleLe` is transitive (as a Bool relation). -/
theorem titleLe_trans (a b c : ApiProject.BookRec)
    (h1 : ApiProject.titleLe a b = true) (h2 : ApiProject.titleLe b c = true) :
    ApiProject.titleLe a c = true := by
  simp only [ApiProject.titleLe, decide_eq_true_eq] at *
  exact le_trans h1 h2

/-- Helper: `titleLe` is total (as a Bool relation). -/
theorem titleLe_total (a b : ApiProject.BookRec) :
    (ApiProject.titleLe a b || ApiProject.titleLe b a) = true := by
  simp only [ApiProject.titleLe, Bool.or_eq_true, decide_eq_true_eq]
  exact le_total _ _

/-- Helper: `yearLe` is transitive (as a Bool relation). -/
theorem yearLe_trans (a b c : ApiProject.BookRec)
    (h1 : ApiProject.yearLe a b = true) (h2 : ApiProject.yearLe b c = true) :
    ApiProject.yearLe a c = true := by
  simp only [ApiProject.yearLe, decide_eq_true_eq] at *
  omega

/-- Helper: `yearLe` is total (as a Bool relation). -/
theorem yearLe_total (a b : ApiProject.BookRec) :
    (ApiProject.yearLe a b || ApiProject.yearLe b a) = true := by
  simp only [ApiProject.yearLe, Bool.or_eq_true, decide_eq_true_eq]
  omega

/-- C3: with a non-empty search term `s`, the search stage keeps exactly the
books for which `s` is a case-insensitive substring of the title or of the
joined author's name (the union of the two match sets); with no search term
the stage returns the queryset unchanged. -/
theorem search_stage_spec (db : ApiProject.ApiDB) (s : String) (hs : s ≠ "")
    (books : List ApiProject.BookRec) :
    (∀ b, b ∈ ApiProject.searchStage db (some s) books ↔
      b ∈ books ∧ (ApiProject.icontains b.title s = true ∨
        ∃ a ∈ db.authors, a.id = b.author ∧
          ApiProject.icontains a.name s = true)) ∧
    ApiProject.searchStage db none books = books := by
  refine ⟨fun b => ?_, rfl⟩
  show b ∈ (if s = "" then books
      else books.filter (ApiProject.bookMatchesSearch db s)) ↔ _
  rw [if_neg hs]
  simp only [List.mem_filter, ApiProject.bookMatchesSearch, Bool.or_eq_true,
    List.any_eq_true, Bool.and_eq_true, beq_iff_eq]

/-- Witness for C3: searching "HA" matches "The Hatter" by title and
"Poems" through its author "Sarah", case-insensitively. -/
theorem search_stage_spec_witness :
    (∀ b, b ∈ ApiProject.searchStage
        ⟨[⟨1, "Sarah"⟩], [⟨1, "The Hatter", 1999, 2⟩, ⟨2, "Poems", 2000, 1⟩]⟩
        (some "HA")
        [⟨1, "The Hatter", 1999, 2⟩, ⟨2, "Poems", 2000, 1⟩] ↔
      b ∈ [(⟨1, "The Hatter", 1999, 2⟩ : ApiProject.BookRec), ⟨2, "Poems", 2000, 1⟩] ∧
        (ApiProject.icontains b.title "HA" = true ∨
          ∃ a ∈ [(⟨1, "Sarah"⟩ : ApiProject.AuthorRec)], a.id = b.author ∧
            ApiProject.icontains a.name "HA" = true)) ∧
    ApiProject.searchStage
        ⟨[⟨1, "Sarah"⟩], [⟨1, "The Hatter", 1999, 2⟩, ⟨2, "Poems", 2000, 1⟩]⟩
        none
        [⟨1, "The Hatter", 1999, 2⟩, ⟨2, "Poems", 2000, 1⟩] =
      [⟨1, "The Hatter", 1999, 2⟩, ⟨2, "Poems", 2000, 1⟩] :=
  search_stage_spec ⟨[⟨1, "Sarah"⟩], [⟨1, "The Hatter", 1999, 2⟩, ⟨2, "Poems", 2000, 1⟩]⟩
    "HA" (by decide) [⟨1, "The Hatter", 1999, 2⟩, ⟨2, "Poems", 2000, 1⟩]

/-- C4: the ordering stage sorts by the requested whitelisted field
ascending, descending when the field is `-`-prefixed, and a missing
parameter gives the default title-ascending order: in every case the output
is a permutation of the input, pairwise sorted by the corresponding key. -/
theorem ordering_stage_spec (books : List ApiProject.BookRec) :
    ((ApiProject.orderingStage (some "title") books).Perm books ∧
      List.Pairwise (fun a b : ApiProject.BookRec => a.title ≤ b.title)
        (ApiProject.orderingStage (some "title") books)) ∧
    ((ApiProject.orderingStage (some "-title") books).Perm books ∧
      List.Pairwise (fun a b : ApiProject.BookRec => b.title ≤ a.title)
        (ApiProject.orderingStage (some "-title") books)) ∧
    ((ApiProject.orderingStage (some "publication_year") books).Perm books ∧
      List.Pairwise
        (fun a b : ApiProject.BookRec => a.publication_year ≤ b.publication_year)
        (ApiProject.orderingStage (some "publication_year") books)) ∧
    ((ApiProject.orderingStage (some "-publication_year") books).Perm books ∧
      List.Pairwise
        (fun a b : ApiProject.BookRec => b.publication_year ≤ a.publication_year)
        (ApiProject.orderingStage (some "-publication_year") books)) ∧
    (ApiProject.orderingStage none books =
        ApiProject.orderingStage (some "title") books ∧
      (ApiProject.orderingStage none books).Perm books ∧
      List.Pairwise (fun a b : ApiProject.BookRec => a.title ≤ b.title)
        (ApiProject.orderingStage none books)) := by
  have e1 : ApiProject.orderingStage (some "title") books =
      books.mergeSort ApiProject.titleLe := rfl
  have e2 : ApiProject.orderingStage (some "-title") books =
      books.mergeSort (fun a b => ApiProject.titleLe b a) := rfl
  have e3 : ApiProject.orderingStage (some "publication_year") books =
      books.mergeSort ApiProject.yearLe := rfl
  have e4 : ApiProject.orderingStage (some "-publication_year") books =
      books.mergeSort (fun a b => ApiProject.yearLe b a) := rfl
  have e5 : ApiProject.orderingStage none books =
      books.mergeSort ApiProject.titleLe := rfl
  refine ⟨⟨?_, ?_⟩, ⟨?_, ?_⟩, ⟨?_, ?_⟩, ⟨?_, ?_⟩, ?_, ?_, ?_⟩
  · exact e1 ▸ List.mergeSort_perm books _
  · exact e1 ▸ (List.sorted_mergeSort titleLe_trans titleLe_total books).imp
      (fun h => by simpa [ApiProject.titleLe] using h)
  · exact e2 ▸ List.mergeSort_perm books _
  · exact e2 ▸ (List.sorted_mergeSort
        (fun a b c h1 h2 => titleLe_trans c b a h2 h1)
        (fun a b => titleLe_total b a) books).imp
      (fun h => by simpa [ApiProject.titleLe] using h)
  · exact e3 ▸ List.mergeSort_perm books _
  · exact e3 ▸ (List.sorted_mergeSort yearLe_trans yearLe_total books).imp
      (fun h => by simpa [ApiProject.yearLe] using h)
  · exact e4 ▸ List.mergeSort_perm books _
  · exact e4 ▸ (List.sorted_mergeSort
        (fun a b c h1 h2 => yearLe_trans c b a h2 h1)
        (fun a b => yearLe_total b a) books).imp
      (fun h => by simpa [ApiProject.yearLe] using h)
  · exact e5.trans e1.symm
  · exact e5 ▸ List.mergeSort_perm books _
  · exact e5 ▸ (List.sorted_mergeSort titleLe_trans titleLe_total books).imp
      (fun h => by simpa [ApiProject.titleLe] using h)

/-- C5: the exact-match filter stage keeps exactly the books whose fields
equal every present whitelisted parameter (title, author id,
publication year), independent of which other filters are present. -/
theorem filter_stage_spec (p : ApiProject.BookFilterParams)
    (books : List ApiProject.BookRec) (b : ApiProject.BookRec) :
    b ∈ ApiProject.filterStage p books ↔
      b ∈ books ∧
        (∀ t, p.title = some t → b.title = t) ∧
        (∀ a, p.author = some a → b.author = a) ∧
        (∀ y, p.publication_year = some y → b.publication_year = y) := by
  obtain ⟨ot, oa, oy⟩ := p
  cases ot <;> cases oa <;> cases oy <;>
    simp [ApiProject.filterStage, List.mem_filter,
      ApiProject.matchesFilterParams, and_assoc]

/-- C6: a role-protected operation proceeds to its CRUD path iff the account
is authenticated, has a profile, and the profile's role equals the required
role (`is_admin` / `is_librarian` / `is_member` under `user_passes_test`),
or — for the owner-gated posts API — the account is the resource's author;
otherwise it is refused (redirect, resp. 403) with the protected state left
untouched. -/
theorem role_gate_spec {σ : Type} (u : RelApp.AuthUser) (s : σ)
    (view : σ → σ × String) (m : Method) (acct : SM.Account) (p : SM.PostRec)
    (handler : σ → σ × Nat) (hm : safeMethod m = false) :
    (RelApp.is_admin u = true ↔
      u.is_authenticated = true ∧
        ∃ pr, u.profile = some pr ∧ pr.role = "Admin") ∧
    (RelApp.is_librarian u = true ↔
      u.is_authenticated = true ∧
        ∃ pr, u.profile = some pr ∧ pr.role = "Librarian") ∧
    (RelApp.is_member u = true ↔
      u.is_authenticated = true ∧
        ∃ pr, u.profile = some pr ∧ pr.role = "Member") ∧
    (RelApp.is_admin u = true →
      RelApp.user_passes_test_view RelApp.is_admin view u s = view s) ∧
    (RelApp.is_admin u = false →
      RelApp.user_passes_test_view RelApp.is_admin view u s =
        (s, "redirect:/login/")) ∧
    (SM.objectWritePermitted m acct p = SM.is_owner acct p) ∧
    (SM.is_owner acct p = true →
      SM.objectDispatch m acct p handler s = handler s) ∧
    (SM.is_owner acct p = false →
      SM.objectDispatch m acct p handler s = (s, 403)) := by
  have hperm : SM.objectWritePermitted m acct p = SM.is_owner acct p := by
    cases acct <;>
      simp [SM.objectWritePermitted, SM.isAuthenticated,
        SM.has_object_permission, SM.is_owner, hm]
  refine ⟨?_, ?_, ?_, ?_, ?_, hperm, ?_, ?_⟩
  · cases h : u.profile <;>
      simp [RelApp.is_admin, h, Bool.and_eq_true, beq_iff_eq]
  · cases h : u.profile <;>
      simp [RelApp.is_librarian, h, Bool.and_eq_true, beq_iff_eq]
  · cases h : u.profile <;>
      simp [RelApp.is_member, h, Bool.and_eq_true, beq_iff_eq]
  · intro h; simp [RelApp.user_passes_test_view, h]
  · intro h; simp [RelApp.user_passes_test_view, h]
  · intro h; simp [SM.objectDispatch, hperm, h]
  · intro h; simp [SM.objectDispatch, hperm, h]

/-- Witness for C6: an admin-role account passes the admin gate, and the
author of post 5's record may write it with a DELETE. -/
theorem role_gate_spec_witness :
    (RelApp.is_admin ⟨true, some ⟨7, "Admin"⟩⟩ = true ↔
      (true : Bool) = true ∧
        ∃ pr, (some ⟨7, "Admin"⟩ : Option RelApp.ProfileRow) = some pr ∧
          pr.role = "Admin") ∧
    (RelApp.is_librarian ⟨true, some ⟨7, "Admin"⟩⟩ = true ↔
      (true : Bool) = true ∧
        ∃ pr, (some ⟨7, "Admin"⟩ : Option RelApp.ProfileRow) = some pr ∧
          pr.role = "Librarian") ∧
    (RelApp.is_member ⟨true, some ⟨7, "Admin"⟩⟩ = true ↔
      (true : Bool) = true ∧
        ∃ pr, (some ⟨7, "Admin"⟩ : Option RelApp.ProfileRow) = some pr ∧
          pr.role = "Member") ∧
    (RelApp.is_admin ⟨true, some ⟨7, "Admin"⟩⟩ = true →
      RelApp.user_passes_test_view RelApp.is_admin
        (fun s => (s + 1, "ok")) ⟨true, some ⟨7, "Admin"⟩⟩ (0 : Nat) =
        (fun s => (s + 1, "ok")) 0) ∧
    (RelApp.is_admin ⟨true, some ⟨7, "Admin"⟩⟩ = false →
      RelApp.user_passes_test_view RelApp.is_admin
        (fun s => (s + 1, "ok")) ⟨true, some ⟨7, "Admin"⟩⟩ (0 : Nat) =
        (0, "redirect:/login/")) ∧
    (SM.objectWritePermitted .DELETE (.auth 5) ⟨1, 5, "t", "c", 0, 0⟩ =
      SM.is_owner (.auth 5) ⟨1, 5, "t", "c", 0, 0⟩) ∧
    (SM.is_owner (.auth 5) ⟨1, 5, "t", "c", 0, 0⟩ = true →
      SM.objectDispatch .DELETE (.auth 5) ⟨1, 5, "t", "c", 0, 0⟩
        (fun s => (s, 200)) (0 : Nat) = (fun s => (s, 200)) 0) ∧
    (SM.is_owner (.auth 5) ⟨1, 5, "t", "c", 0, 0⟩ = false →
      SM.objectDispatch .DELETE (.auth 5) ⟨1, 5, "t", "c", 0, 0⟩
        (fun s => (s, 200)) (0 : Nat) = (0, 403)) :=
  role_gate_spec ⟨true, some ⟨7, "Admin"⟩⟩ 0 (fun s => (s + 1, "ok"))
    .DELETE (.auth 5) ⟨1, 5, "t", "c", 0, 0⟩ (fun s => (s, 200)) rfl

/-- C7: after deleting an author, no book referencing that author remains,
every book of another author is still present, nothing new appears, and the
author row itself is gone. -/
theorem author_cascade_delete (db : ApiProject.ApiDB) (aid : Nat) :
    (∀ b ∈ (ApiProject.delete_author aid db).books, b.author ≠ aid) ∧
    (∀ b ∈ db.books, b.author ≠ aid →
      b ∈ (ApiProject.delete_author aid db).books) ∧
    (∀ b ∈ (ApiProject.delete_author aid db).books, b ∈ db.books) ∧
    (∀ a, a ∈ (ApiProject.delete_author aid db).authors ↔
      a ∈ db.authors ∧ a.id ≠ aid) := by
  refine ⟨?_, ?_, ?_, ?_⟩ <;>
    simp [ApiProject.delete_author, List.mem_filter, bne_iff_ne] <;> tauto

/-- Helper: a field name kept by `writablePayload` is not read-only. -/
theorem mem_writablePayload_not_read_only (fields ro : List String)
    (body : SM.Payload) (kv : String × SM.FieldValue)
    (h : kv ∈ SM.writablePayload fields ro body) :
    ro.contains kv.1 = false := by
  simp only [SM.writablePayload, List.mem_filter, Bool.and_eq_true,
    Bool.not_eq_true'] at h
  exact h.2.2

/-- Helper: applying a field other than `author` leaves `author` alone. -/
theorem applyPostField_author (p : SM.PostRec) (kv : String × SM.FieldValue)
    (h : kv.1 ≠ "author") : (SM.applyPostField p kv).author = p.author := by
  unfold SM.applyPostField
  split_ifs with h1 h2 h3 h4 h5 _h6 <;>
    first
    | (exact absurd h2 h)
    | (cases hv : kv.2 <;> rfl)

/-- Helper: the same for comments. -/
theorem applyCommentField_author (c : SM.CommentRec)
    (kv : String × SM.FieldValue) (h : kv.1 ≠ "author") :
    (SM.applyCommentField c kv).author = c.author := by
  unfold SM.applyCommentField
  split_ifs with h1 h2 h3 h4 h5 _h6 <;>
    first
    | (exact absurd h3 h)
    | (cases hv : kv.2 <;> rfl)

/-- Helper: folding author-free fields over a post keeps its author. -/
theorem foldl_applyPostField_author (l : SM.Payload) (p : SM.PostRec)
    (h : ∀ kv ∈ l, kv.1 ≠ "author") :
    (l.foldl SM.applyPostField p).author = p.author := by
  induction l generalizing p with
  | nil => rfl
  | cons kv rest ih =>
      rw [List.foldl_cons, ih _ (fun x hx => h x (List.mem_cons_of_mem _ hx))]
      exact applyPostField_author p kv (h kv (List.mem_cons_self _ _))

/-- Helper: folding author-free fields over a comment keeps its author. -/
theorem foldl_applyCommentField_author (l : SM.Payload) (c : SM.CommentRec)
    (h : ∀ kv ∈ l, kv.1 ≠ "author") :
    (l.foldl SM.applyCommentField c).author = c.author := by
  induction l generalizing c with
  | nil => rfl
  | cons kv rest ih =>
      rw [List.foldl_cons, ih _ (fun x hx => h x (List.mem_cons_of_mem _ hx))]
      exact applyCommentField_author c kv (h kv (List.mem_cons_self _ _))

/-- C8: every update through the public posts API leaves the record's
`author` unchanged whatever author value the body supplies (the serializers
declare `author` read-only), and creation fixes `author` to the requesting
account. -/
theorem author_immutable_spec (p : SM.PostRec) (c : SM.CommentRec)
    (body : SM.Payload) (requester newId now : Nat) :
    (SM.post_update p body).author = p.author ∧
    (SM.comment_update c body).author = c.author ∧
    (SM.post_create requester newId now body).author = requester ∧
    (SM.comment_create requester newId now body).author = requester := by
  refine ⟨?_, ?_, rfl, rfl⟩
  · apply foldl_applyPostField_author
    intro kv hkv hk
    have hro := mem_writablePayload_not_read_only _ _ _ _ hkv
    rw [hk] at hro
    simp [SM.post_read_only_fields] at hro
  · apply foldl_applyCommentField_author
    intro kv hkv hk
    have hro := mem_writablePayload_not_read_only _ _ _ _ hkv
    rw [hk] at hro
    simp [SM.comment_read_only_fields] at hro

/-- C9: registering a fresh account creates exactly one `UserProfile` linked
to it, with the default role `Member` (a valid `ROLE_CHOICES` value), and
the invariant that every account created through this path has a profile
with a valid role is preserved. -/
theorem profile_autocreate_spec (st : RelApp.AuthState) (uid : Nat)
    (hfresh : ∀ pr ∈ st.profiles, pr.user ≠ uid) :
    ((RelApp.register_user uid st).profiles.filter
        (fun pr => pr.user == uid)) = [{ user := uid, role := "Member" }] ∧
    "Member" ∈ RelApp.ROLE_CHOICES ∧
    (RelApp.allUsersProfiled st →
      RelApp.allUsersProfiled (RelApp.register_user uid st)) := by
  refine ⟨?_, by decide, ?_⟩
  · simp only [RelApp.register_user, RelApp.create_user_profile, if_pos,
      List.filter_append]
    rw [List.filter_eq_nil_iff.mpr (fun pr hpr => by
      simpa using hfresh pr hpr)]
    simp
  · intro hall u hu
    simp only [RelApp.register_user, List.mem_append,
      List.mem_singleton] at hu
    rcases hu with hu | rfl
    · obtain ⟨pr, hpr, h1, h2⟩ := hall u hu
      exact ⟨pr, by
        simp only [RelApp.register_user, RelApp.create_user_profile, if_pos,
          List.mem_append]
        exact Or.inl hpr, h1, h2⟩
    · refine ⟨{ user := u, role := "Member" }, ?_, rfl, ?_⟩
      · simp [RelApp.register_user, RelApp.create_user_profile]
      · show "Member" ∈ RelApp.ROLE_CHOICES
        decide

/-- Witness for C9: registering user 7 in the empty state yields exactly its
Member profile. -/
theorem profile_autocreate_spec_witness :
    ((RelApp.register_user 7 ⟨[], []⟩).profiles.filter
        (fun pr => pr.user == 7)) = [{ user := 7, role := "Member" }] ∧
    "Member" ∈ RelApp.ROLE_CHOICES ∧
    (RelApp.allUsersProfiled ⟨[], []⟩ →
      RelApp.allUsersProfiled (RelApp.register_user 7 ⟨[], []⟩)) :=
  profile_autocreate_spec ⟨[], []⟩ 7 (by simp)

/-- Helper: `get_or_create` returns a tag carrying the requested name and
leaves the post's attached tags alone. -/
theorem get_or_create_spec (name : String) (st : Blog.TagState) :
    (Blog.get_or_create name st).1.name = name ∧
    (Blog.get_or_create name st).2.postTags = st.postTags := by
  unfold Blog.get_or_create
  cases h : st.allTags.find? (fun t => t.name == name) with
  | none => exact ⟨rfl, rfl⟩
  | some t =>
      refine ⟨?_, rfl⟩
      simpa using List.find?_some h

/-- Helper: after `tags_add t`, the attached names are the previous ones
plus `t.name`. -/
theorem tags_add_names_mem (t : Blog.Tag) (st : Blog.TagState) (n : String) :
    n ∈ Blog.postTagNames (Blog.tags_add t st) ↔
      n ∈ Blog.postTagNames st ∨ n = t.name := by
  by_cases h : st.postTags.contains t
  · have ht : t ∈ st.postTags := by simpa using h
    simp only [Blog.tags_add, if_pos h]
    constructor
    · exact Or.inl
    · rintro (hn | rfl)
      · exact hn
      · exact List.mem_map.mpr ⟨t, ht, rfl⟩
  · simp only [Blog.tags_add, if_neg h, Blog.postTagNames, List.map_append,
      List.mem_append, List.map_cons, List.map_nil, List.mem_singleton]

/-- Helper: attaching a list of raw names adds exactly their lowercasings to
the post's tag names. -/
theorem add_tag_names_mem (names : List String) :
    ∀ (st : Blog.TagState) (n : String),
      n ∈ Blog.postTagNames (Blog.add_tag_names names st) ↔
        n ∈ Blog.postTagNames st ∨ ∃ m ∈ names, m.toLower = n := by
  induction names with
  | nil => intro st n; simp [Blog.add_tag_names]
  | cons name rest ih =>
      intro st n
      rw [show Blog.add_tag_names (name :: rest) st =
          Blog.add_tag_names rest
            (Blog.tags_add (Blog.get_or_create name.toLower st).1
              (Blog.get_or_create name.toLower st).2) from rfl]
      rw [ih, tags_add_names_mem, (get_or_create_spec name.toLower st).1]
      rw [show Blog.postTagNames (Blog.get_or_create name.toLower st).2 =
          Blog.postTagNames st from by
        unfold Blog.postTagNames
        rw [(get_or_create_spec name.toLower st).2]]
      constructor
      · rintro ((hn | rfl) | ⟨m, hm, rfl⟩)
        · exact Or.inl hn
        · exact Or.inr ⟨name, List.mem_cons_self _ _, rfl⟩
        · exact Or.inr ⟨m, List.mem_cons_of_mem _ hm, rfl⟩
      · rintro (hn | ⟨m, hm, rfl⟩)
        · exact Or.inl (Or.inl hn)
        · rcases List.mem_cons.mp hm with rfl | hm'
          · exact Or.inl (Or.inr rfl)
          · exact Or.inr ⟨m, hm', rfl⟩

/-- Helper: `get_or_create` never duplicates a tag name: it creates a row
only when no row of that name exists. -/
theorem get_or_create_nodup (name : String) (st : Blog.TagState)
    (h : (st.allTags.map (fun t => t.name)).Nodup) :
    (((Blog.get_or_create name st).2.allTags.map (fun t => t.name)).Nodup) := by
  unfold Blog.get_or_create
  cases hf : st.allTags.find? (fun t => t.name == name) with
  | some t => exact h
  | none =>
      simp only [List.map_append, List.map_cons, List.map_nil]
      rw [List.nodup_append]
      refine ⟨h, List.nodup_singleton _, ?_⟩
      intro x hx
      simp only [List.mem_singleton]
      obtain ⟨t, ht, rfl⟩ := List.mem_map.mp hx
      have := List.find?_eq_none.mp hf t ht
      simpa using this

/-- Helper: the attach loop preserves tag-name uniqueness, and `tags_add`
and `tags_clear` never touch the tag table. -/
theorem add_tag_names_nodup (names : List String) :
    ∀ (st : Blog.TagState),
      (st.allTags.map (fun t => t.name)).Nodup →
      (((Blog.add_tag_names names st).allTags.map (fun t => t.name)).Nodup) := by
  induction names with
  | nil => intro st h; exact h
  | cons name rest ih =>
      intro st h
      rw [show Blog.add_tag_names (name :: rest) st =
          Blog.add_tag_names rest
            (Blog.tags_add (Blog.get_or_create name.toLower st).1
              (Blog.get_or_create name.toLower st).2) from rfl]
      apply ih
      have hgc := get_or_create_nodup name.toLower st h
      unfold Blog.tags_add
      split_ifs <;> exact hgc

/-- C10: `PostForm.save` replaces the post's tag set with exactly the
lowercased, trimmed, non-empty comma-separated names of the `tags` input
(reusing an existing `Tag` row of that name — tag-name uniqueness is
preserved — or creating it); an empty or missing input removes all of the
post's tags. -/
theorem post_form_tags_spec (input : String) (st : Blog.TagState) :
    (∀ n, n ∈ Blog.postTagNames (Blog.form_save_tags input st) ↔
      ∃ m ∈ Blog.parse_tag_names input, m.toLower = n) ∧
    Blog.postTagNames (Blog.form_save_tags "" st) = [] ∧
    ((st.allTags.map (fun t => t.name)).Nodup →
      (((Blog.form_save_tags input st).allTags.map (fun t => t.name)).Nodup)) := by
  refine ⟨?_, ?_, ?_⟩
  · intro n
    unfold Blog.form_save_tags
    split_ifs with h
    · rw [add_tag_names_mem]
      simp [Blog.tags_clear, Blog.postTagNames]
    · have hi : input = "" := by
        by_contra hne
        exact h hne
      subst hi
      have hp : Blog.parse_tag_names "" = [] := by decide
      simp [Blog.tags_clear, Blog.postTagNames, hp]
  · simp [Blog.form_save_tags, Blog.tags_clear, Blog.postTagNames]
  · intro h
    unfold Blog.form_save_tags
    split_ifs with hne
    · exact add_tag_names_nodup _ _ h
    · exact h
